import Mathlib

/-!
Verification of the Deriva derivation engine against its specification.

Python strings are embedded as `List Char`. Character-level Python
primitives (`str.lower`, `str.isalnum`, `str.isalpha`) are Unicode-aware,
so the functions that depend on them are parameterized by the primitives
(`lower : Char → List Char`, since Python's full lowercase mapping may
expand one character to several, and `isAlnum isAlpha : Char → Bool`);
theorems assume only the facts about those primitives that hold of the
Unicode tables, localized to the characters actually involved.  Concrete
witnesses instantiate them with the ASCII model (`asciiLower`,
`Char.isAlphanum`, `Char.isAlpha`), on which Python agrees.
-/

namespace Deriva

/-- Python strings, embedded as lists of characters. -/
abbrev Str := List Char

/-- ASCII model of Python `str.lower`, used to instantiate theorems at
concrete inputs (Python's `lower` agrees with it on ASCII strings). -/
def asciiLower (c : Char) : Str := [c.toLower]

/-- Python `s.lower()`: apply the (possibly expanding) per-character
lowercase mapping to every character. -/
def pyStrLower (lower : Char → Str) (s : Str) : Str :=
  s.flatMap lower

/-- Python `s.replace(old, new)` for single-character `old`/`new`. -/
def pyReplace (old new : Char) (s : Str) : Str :=
  s.map (fun c => if c = old then new else c)

/-- First two statements of `_sanitize_identifier`
(`deriva/modules/derivation/base.py`): lowercase, replace spaces, hyphens
and colons with underscores, then keep only alphanumerics and underscores. -/
def _sanitize_core (lower : Char → Str) (isAlnum : Char → Bool) (identifier : Str) : Str :=
  (pyReplace ':' '_' (pyReplace '-' '_' (pyReplace ' ' '_' (pyStrLower lower identifier)))).filter
    (fun c => isAlnum c || c = '_')

/-- `_sanitize_identifier` from `deriva/modules/derivation/base.py`:
lowercase; replace spaces, hyphens, colons with underscores; keep only
alphanumerics and underscores; if the result is non-empty and does not
start with a letter or underscore, prefix it with `id_`. -/
def _sanitize_identifier (lower : Char → Str) (isAlnum isAlpha : Char → Bool)
    (identifier : Str) : Str :=
  match _sanitize_core lower isAlnum identifier with
  | [] => []
  | c :: cs =>
      if !(isAlpha c || c = '_') then 'i' :: 'd' :: '_' :: c :: cs else c :: cs

/-- The spec's predicate on sanitized identifiers: non-empty, starts with a
letter or underscore, and every subsequent character is alphanumeric or an
underscore (spec §8 / claim C3, stated from the spec's words). -/
def goodIdent (isAlnum isAlpha : Char → Bool) (s : Str) : Bool :=
  match s with
  | [] => false
  | c :: cs => (isAlpha c || c = '_') && cs.all (fun c => isAlnum c || c = '_')

/-- The single-character map that the three `replace` calls compose to. -/
def sepReplace (c : Char) : Char :=
  if (if (if c = ' ' then '_' else c) = '-' then '_' else (if c = ' ' then '_' else c)) = ':'
  then '_'
  else (if (if c = ' ' then '_' else c) = '-' then '_' else (if c = ' ' then '_' else c))

theorem triple_replace_eq_map (s : Str) :
    pyReplace ':' '_' (pyReplace '-' '_' (pyReplace ' ' '_' s)) = s.map sepReplace := by
  simp only [pyReplace, List.map_map]
  exact List.map_congr_left fun a _ => rfl

theorem sepReplace_cases (c : Char) : sepReplace c = '_' ∨ sepReplace c = c := by
  unfold sepReplace
  split
  · exact Or.inl rfl
  · split
    · exact Or.inl rfl
    · split
      · exact Or.inl rfl
      · exact Or.inr rfl

theorem flatMap_eq_self {f : Char → Str} {xs : Str}
    (h : ∀ c ∈ xs, f c = [c]) : xs.flatMap f = xs := by
  induction xs with
  | nil => rfl
  | cons x xs ih =>
      simp only [List.flatMap_cons]
      rw [h x (List.mem_cons_self x xs), ih fun c hc => h c (List.mem_cons_of_mem x hc)]
      rfl

theorem map_eq_self {f : Char → Char} {xs : Str}
    (h : ∀ c ∈ xs, f c = c) : xs.map f = xs := by
  induction xs with
  | nil => rfl
  | cons x xs ih =>
      simp only [List.map_cons]
      rw [h x (List.mem_cons_self x xs), ih fun c hc => h c (List.mem_cons_of_mem x hc)]

theorem sepReplace_eq_self {c : Char} (h1 : c ≠ ' ') (h2 : c ≠ '-') (h3 : c ≠ ':') :
    sepReplace c = c := by
  simp [sepReplace, h1, h2, h3]

theorem sepReplace_of_kept {isAlnum : Char → Bool} {c : Char}
    (hp : (isAlnum c || c = '_') = true)
    (hsp : isAlnum ' ' = false) (hhy : isAlnum '-' = false) (hco : isAlnum ':' = false) :
    sepReplace c = c := by
  rcases Bool.or_eq_true_iff.mp hp with h | h
  · refine sepReplace_eq_self ?_ ?_ ?_ <;> rintro rfl <;> simp_all
  · have : c = '_' := by simpa using h
    subst this
    decide

theorem core_pred {lower : Char → Str} {isAlnum : Char → Bool} {s : Str} :
    ∀ c ∈ _sanitize_core lower isAlnum s, (isAlnum c || c = '_') = true := by
  intro c hc
  unfold _sanitize_core at hc
  simpa using List.of_mem_filter hc

theorem core_src {lower : Char → Str} {isAlnum : Char → Bool} {s : Str} :
    ∀ c ∈ _sanitize_core lower isAlnum s, c = '_' ∨ c ∈ pyStrLower lower s := by
  intro c hc
  unfold _sanitize_core at hc
  have hc' := List.mem_of_mem_filter hc
  rw [triple_replace_eq_map] at hc'
  obtain ⟨d, hd, hdc⟩ := List.mem_map.mp hc'
  rcases sepReplace_cases d with h | h
  · exact Or.inl (hdc ▸ h ▸ rfl)
  · exact Or.inr (by rw [← hdc, h]; exact hd)

theorem mem_sanitize {lower : Char → Str} {isAlnum isAlpha : Char → Bool} {s : Str} {c : Char}
    (hc : c ∈ _sanitize_identifier lower isAlnum isAlpha s) :
    c = 'i' ∨ c = 'd' ∨ c = '_' ∨ c ∈ _sanitize_core lower isAlnum s := by
  unfold _sanitize_identifier at hc
  split at hc
  · cases hc
  · rename_i c0 cs0 heq
    split at hc
    · simp only [List.mem_cons] at hc
      rcases hc with rfl | rfl | rfl | hc
      · exact Or.inl rfl
      · exact Or.inr (Or.inl rfl)
      · exact Or.inr (Or.inr (Or.inl rfl))
      · exact Or.inr (Or.inr (Or.inr (heq ▸ List.mem_cons.mpr hc)))
    · exact Or.inr (Or.inr (Or.inr (heq ▸ hc)))

theorem head_sanitize {lower : Char → Str} {isAlnum isAlpha : Char → Bool} {s : Str}
    {c : Char} {cs : Str} (hpi : isAlpha 'i' = true)
    (h : _sanitize_identifier lower isAlnum isAlpha s = c :: cs) :
    (isAlpha c || c = '_') = true := by
  unfold _sanitize_identifier at h
  split at h
  · cases h
  · rename_i c0 cs0 heq
    split at h
    · cases h
      simp [hpi]
    · rename_i hcond
      cases h
      cases hx : (isAlpha c || c = '_') with
      | true => rfl
      | false => exact absurd (by simp [hx]) hcond

theorem sanitize_fixed (lower : Char → Str) (isAlnum isAlpha : Char → Bool) (t : Str)
    (hfix : ∀ c ∈ t, lower c = [c])
    (hrep : ∀ c ∈ t, sepReplace c = c)
    (hfil : ∀ c ∈ t, (isAlnum c || c = '_') = true)
    (hhead : ∀ c cs, t = c :: cs → (isAlpha c || c = '_') = true) :
    _sanitize_identifier lower isAlnum isAlpha t = t := by
  have hcore : _sanitize_core lower isAlnum t = t := by
    unfold _sanitize_core
    rw [show pyStrLower lower t = t from flatMap_eq_self hfix, triple_replace_eq_map,
      map_eq_self hrep, List.filter_eq_self.mpr hfil]
  unfold _sanitize_identifier
  rw [hcore]
  cases t with
  | nil => rfl
  | cons c cs => simp [hhead c cs rfl]

/-- C2: identifier sanitization is idempotent: sanitizing an
already-sanitized identifier returns it unchanged.  The hypotheses are the
facts about Python's Unicode `lower`/`isalnum`/`isalpha` tables, localized
to the characters involved: lowercasing is the identity on each character
of the lowered input and on `_`, `i`, `d`; space, hyphen and colon are not
alphanumeric; `i` and `d` are alphanumeric and `i` is a letter. -/
theorem sanitize_idempotent (lower : Char → Str) (isAlnum isAlpha : Char → Bool) (s : Str)
    (hl : ∀ c ∈ pyStrLower lower s, lower c = [c])
    (hu : lower '_' = ['_']) (hi : lower 'i' = ['i']) (hd : lower 'd' = ['d'])
    (hsp : isAlnum ' ' = false) (hhy : isAlnum '-' = false) (hco : isAlnum ':' = false)
    (hai : isAlnum 'i' = true) (had : isAlnum 'd' = true) (hpi : isAlpha 'i' = true) :
    _sanitize_identifier lower isAlnum isAlpha (_sanitize_identifier lower isAlnum isAlpha s)
      = _sanitize_identifier lower isAlnum isAlpha s := by
  apply sanitize_fixed
  · intro c hc
    rcases mem_sanitize hc with rfl | rfl | rfl | hcore
    · exact hi
    · exact hd
    · exact hu
    · rcases core_src c hcore with rfl | hmem
      · exact hu
      · exact hl c hmem
  · intro c hc
    rcases mem_sanitize hc with rfl | rfl | rfl | hcore
    · decide
    · decide
    · decide
    · exact sepReplace_of_kept (core_pred c hcore) hsp hhy hco
  · intro c hc
    rcases mem_sanitize hc with rfl | rfl | rfl | hcore
    · simp [hai]
    · simp [had]
    · simp
    · exact core_pred c hcore
  · intro c cs h
    exact head_sanitize hpi h

/-- Witness for C2: idempotence at the concrete input `"App-Core!"`
with the ASCII character model. -/
theorem sanitize_idempotent_witness :
    _sanitize_identifier asciiLower Char.isAlphanum Char.isAlpha
        (_sanitize_identifier asciiLower Char.isAlphanum Char.isAlpha "App-Core!".data)
      = _sanitize_identifier asciiLower Char.isAlphanum Char.isAlpha "App-Core!".data :=
  sanitize_idempotent asciiLower Char.isAlphanum Char.isAlpha "App-Core!".data
    (by decide) (by decide) (by decide) (by decide) (by decide) (by decide) (by decide)
    (by decide) (by decide) (by decide)

/-- Counterexample to C3 as stated: on the input `"!"` every character is
stripped, the result is the empty string, and the empty string does not
start with a letter or an underscore. -/
theorem sanitize_not_always_good :
    goodIdent Char.isAlphanum Char.isAlpha
        (_sanitize_identifier asciiLower Char.isAlphanum Char.isAlpha "!".data)
      = false := by
  decide

/-- C3 (amended): for every input string the sanitized identifier is either
empty (all characters were stripped) or it starts with a letter or
underscore and every subsequent character is alphanumeric or an
underscore.  Hypotheses: `i` is a letter and `d` is alphanumeric (facts of
the Unicode tables, needed for the `id_` prefix branch). -/
theorem sanitize_good_or_empty (lower : Char → Str) (isAlnum isAlpha : Char → Bool) (s : Str)
    (had : isAlnum 'd' = true) (hpi : isAlpha 'i' = true) :
    _sanitize_identifier lower isAlnum isAlpha s = []
      ∨ goodIdent isAlnum isAlpha (_sanitize_identifier lower isAlnum isAlpha s) = true := by
  unfold _sanitize_identifier
  cases hcore : _sanitize_core lower isAlnum s with
  | nil => exact Or.inl rfl
  | cons c cs =>
      right
      have hall : ∀ x ∈ c :: cs, (isAlnum x || x = '_') = true := by
        rw [← hcore]; exact core_pred
      cases hx : (isAlpha c || c = '_') with
      | true =>
          simp only [hx, Bool.not_true, Bool.false_eq_true, if_false, goodIdent, hx,
            Bool.true_and]
          exact List.all_eq_true.mpr fun x hx => hall x (List.mem_cons_of_mem c hx)
      | false =>
          simp only [hx, Bool.not_false, if_true, goodIdent, hpi, Bool.true_or, Bool.true_and]
          refine List.all_eq_true.mpr ?_
          intro x hx
          simp only [List.mem_cons] at hx
          rcases hx with rfl | rfl | hx
          · simp [had]
          · simp
          · exact hall x (List.mem_cons.mpr hx)

/-- Witness for C3 (amended): at the concrete input `"9lives"` the
sanitized identifier is non-empty and satisfies the predicate. -/
theorem sanitize_good_or_empty_witness :
    _sanitize_identifier asciiLower Char.isAlphanum Char.isAlpha "9lives".data = []
      ∨ goodIdent Char.isAlphanum Char.isAlpha
          (_sanitize_identifier asciiLower Char.isAlphanum Char.isAlpha "9lives".data) = true :=
  sanitize_good_or_empty asciiLower Char.isAlphanum Char.isAlpha "9lives".data
    (by decide) (by decide)

/-- `_normalize_identifier` from `deriva/services/derivation.py`: lowercase,
then replace hyphens and spaces (in that order) with underscores. -/
def _normalize_identifier (lower : Char → Str) (identifier : Str) : Str :=
  pyReplace ' ' '_' (pyReplace '-' '_' (pyStrLower lower identifier))

/-- The keys of `RELATIONSHIP_TYPES` from
`deriva/adapters/archimate/models.py` (`_VALID_RELATIONSHIP_TYPES` in
`deriva/services/derivation.py`). -/
def RELATIONSHIP_TYPES_keys : List Str :=
  ["Composition".data, "Aggregation".data, "Assignment".data, "Realization".data,
    "Serving".data, "Access".data, "Flow".data]

/-- `_normalize_relationship_type` from `deriva/services/derivation.py`:
return the type unchanged if it is a valid key; otherwise return the key
whose lowercase form matches the lowercased input, if any; otherwise
return the input unchanged.  (The source iterates over a set; the
lowercased keys are pairwise distinct, so at most one key matches and
`find?` over the fixed key list picks the same one.) -/
def _normalize_relationship_type (lower : Char → Str) (rel_type : Str) : Str :=
  if rel_type ∈ RELATIONSHIP_TYPES_keys then rel_type
  else
    match RELATIONSHIP_TYPES_keys.find?
        (fun valid => pyStrLower lower valid == pyStrLower lower rel_type) with
    | some valid => valid
    | none => rel_type

/-- A created element, as fed to `_derive_relationships` (only the
`identifier` key is read there). -/
structure CreatedElement where
  identifier : Str
deriving DecidableEq

/-- `element_ids = {e["identifier"] for e in elements}`; membership in the
list is membership in the Python set. -/
def element_ids (elements : List CreatedElement) : List Str :=
  elements.map (fun e => e.identifier)

/-- `resolve_identifier` from `_derive_relationships`
(`deriva/services/derivation.py`): verbatim lookup in the created-element
identifier set, else lookup of the normalized reference among the
normalized identifiers (`normalized_lookup`; on normalization collisions
the Python dict keeps an arbitrary set-iteration winner, `find?` keeps the
first — both return some identifier from the set with the same
normalization). -/
def resolve_identifier (lower : Char → Str) (ids : List Str) (ref : Str) : Option Str :=
  if ref ∈ ids then some ref
  else ids.find? (fun eid => _normalize_identifier lower eid == _normalize_identifier lower ref)

/-- A parsed relationship item.  The response schema
(`RELATIONSHIP_SCHEMA`, `deriva/modules/derivation/base.py`) requires
`source`, `target` and `relationship_type`; `relationship_type` is
nevertheless kept optional because `_derive_relationships` reads it with
`dict.get` and an explicit `"Association"` default. -/
structure RelItem where
  source : Str
  target : Str
  relationship_type : Option Str
  name : Option Str
  confidence : Option ℚ
deriving DecidableEq

/-- A `Relationship` as constructed by `_derive_relationships` and handed
to `archimate_manager.add_relationship` (`properties["confidence"]` is the
only property set). -/
structure Relationship where
  source : Str
  target : Str
  relationship_type : Str
  name : Option Str
  confidence : ℚ
deriving DecidableEq

/-- Accumulator of the relationship loop: `attempted` records every
relationship handed to `add_relationship` (the persistence calls),
`relationships_created` and `errors` mirror the local variables of
`_derive_relationships`. -/
structure RelAcc where
  attempted : List Relationship
  relationships_created : Nat
  errors : List Str
deriving DecidableEq

/-- One iteration of the `for rel_data in parse_result["data"]` loop of
`_derive_relationships` (`deriva/services/derivation.py`).  `persist`
models `archimate_manager.add_relationship`: `none` is success, `some e`
is a raised exception with message `e`. -/
def relStep (lower : Char → Str) (persist : Relationship → Option Str) (ids : List Str)
    (acc : RelAcc) (item : RelItem) : RelAcc :=
  let rel_type := _normalize_relationship_type lower (item.relationship_type.getD "Association".data)
  match resolve_identifier lower ids item.source with
  | none =>
      { acc with errors := acc.errors ++ ["Relationship source not found: ".data ++ item.source] }
  | some source =>
      match resolve_identifier lower ids item.target with
      | none =>
          { acc with
              errors := acc.errors ++ ["Relationship target not found: ".data ++ item.target] }
      | some target =>
          let rel : Relationship :=
            ⟨source, target, rel_type, item.name, item.confidence.getD (1/2)⟩
          match persist rel with
          | none =>
              { acc with
                  attempted := acc.attempted ++ [rel]
                  relationships_created := acc.relationships_created + 1 }
          | some e =>
              { acc with
                  attempted := acc.attempted ++ [rel]
                  errors := acc.errors ++ ["Failed to persist relationship: ".data ++ e] }

/-- The `{success, data, errors}` dict returned by
`parse_relationship_response`. -/
structure ParseRes where
  success : Bool
  data : List RelItem
  errors : List Str

/-- `_derive_relationships` from `deriva/services/derivation.py`.  `llm`
models the LLM collaborator: `none` is `llm_query_fn is None`, `some
(.error e)` a raised exception, `some (.ok pr)` a response that parsed to
`pr`. -/
def _derive_relationships (lower : Char → Str) (persist : Relationship → Option Str)
    (elements : List CreatedElement) (llm : Option (Except Str ParseRes)) : RelAcc :=
  match llm with
  | none => ⟨[], 0, ["LLM not configured".data]⟩
  | some (Except.error e) => ⟨[], 0, ["LLM error: ".data ++ e]⟩
  | some (Except.ok pr) =>
      if !pr.success then ⟨[], 0, pr.errors⟩
      else pr.data.foldl (relStep lower persist (element_ids elements)) ⟨[], 0, []⟩

theorem resolve_identifier_mem {lower : Char → Str} {ids : List Str} {ref x : Str}
    (h : resolve_identifier lower ids ref = some x) : x ∈ ids := by
  unfold resolve_identifier at h
  split at h
  · cases h
    assumption
  · exact List.mem_of_find?_eq_some h

theorem relStep_attempted {lower : Char → Str} {persist : Relationship → Option Str}
    {ids : List Str} {acc : RelAcc} {item : RelItem} :
    ∀ rel ∈ (relStep lower persist ids acc item).attempted,
      rel ∈ acc.attempted ∨ (rel.source ∈ ids ∧ rel.target ∈ ids) := by
  intro rel hrel
  unfold relStep at hrel
  dsimp only at hrel
  split at hrel
  · exact Or.inl hrel
  · rename_i source hs
    split at hrel
    · exact Or.inl hrel
    · rename_i target ht
      split at hrel <;>
      · simp only [List.mem_append, List.mem_singleton] at hrel
        rcases hrel with hrel | rfl
        · exact Or.inl hrel
        · exact Or.inr ⟨resolve_identifier_mem hs, resolve_identifier_mem ht⟩

theorem foldl_relStep_attempted {lower : Char → Str} {persist : Relationship → Option Str}
    {ids : List Str} (items : List RelItem) (acc : RelAcc)
    (hacc : ∀ rel ∈ acc.attempted, rel.source ∈ ids ∧ rel.target ∈ ids) :
    ∀ rel ∈ (items.foldl (relStep lower persist ids) acc).attempted,
      rel.source ∈ ids ∧ rel.target ∈ ids := by
  induction items generalizing acc with
  | nil => exact hacc
  | cons item rest ih =>
      intro rel hrel
      refine ih (relStep lower persist ids acc item) ?_ rel hrel
      intro r hr
      rcases relStep_attempted r hr with hr' | hr'
      · exact hacc r hr'
      · exact hr'

/-- C1: `_derive_relationships` never hands `add_relationship` a
relationship whose source or target is outside the created-element
identifier set; an item whose source does not resolve contributes exactly
one error and no persistence call, likewise for a resolved source with an
unresolved target, and the loop then continues with the remaining items. -/
theorem derive_relationships_safe (lower : Char → Str) (persist : Relationship → Option Str)
    (elements : List CreatedElement) (llm : Option (Except Str ParseRes)) :
    (∀ rel ∈ (_derive_relationships lower persist elements llm).attempted,
        rel.source ∈ element_ids elements ∧ rel.target ∈ element_ids elements)
    ∧ (∀ (ids : List Str) (acc : RelAcc) (item : RelItem),
        resolve_identifier lower ids item.source = none →
          relStep lower persist ids acc item
            = { acc with
                errors := acc.errors ++ ["Relationship source not found: ".data ++ item.source] })
    ∧ (∀ (ids : List Str) (acc : RelAcc) (item : RelItem) (s : Str),
        resolve_identifier lower ids item.source = some s →
        resolve_identifier lower ids item.target = none →
          relStep lower persist ids acc item
            = { acc with
                errors := acc.errors ++ ["Relationship target not found: ".data ++ item.target] })
    ∧ (∀ (ids : List Str) (acc : RelAcc) (item : RelItem) (rest : List RelItem),
        (item :: rest).foldl (relStep lower persist ids) acc
          = rest.foldl (relStep lower persist ids) (relStep lower persist ids acc item)) := by
  refine ⟨?_, ?_, ?_, ?_⟩
  · intro rel hrel
    unfold _derive_relationships at hrel
    split at hrel
    · cases hrel
    · cases hrel
    · split at hrel
      · cases hrel
      · exact foldl_relStep_attempted _ _ (by intro r hr; cases hr) rel hrel
  · intro ids acc item h
    unfold relStep
    rw [h]
  · intro ids acc item s hs ht
    unfold relStep
    rw [hs, ht]
  · intro ids acc item rest
    rfl

/-- Witness for C1: at a concrete item whose source does not resolve, the
step adds exactly one error and leaves the attempted list unchanged. -/
theorem derive_relationships_safe_witness :
    relStep asciiLower (fun _ => none) [] ⟨[], 0, []⟩
        ⟨"a".data, "b".data, none, none, none⟩
      = { attempted := [], relationships_created := 0,
          errors := [] ++ ["Relationship source not found: ".data ++ "a".data] } :=
  (derive_relationships_safe asciiLower (fun _ => none) [] none).2.1 []
    ⟨[], 0, []⟩ ⟨"a".data, "b".data, none, none, none⟩ (by decide)

/-- Modelled from the spec (§4.5): the normalization stage of identifier
sanitization — lowercase; spaces, hyphens *and colons* replaced with
underscores.  Declared only to compare the resolver's normalization
(`_normalize_identifier`) against the spec's wording; the source's
resolver normalization does not replace colons. -/
def spec_sanitize_normalization (lower : Char → Str) (s : Str) : Str :=
  pyReplace ':' '_' (pyReplace '-' '_' (pyReplace ' ' '_' (pyStrLower lower s)))

/-- Counterexample to C4 as stated: the reference `"a:b"` and the created
identifier `"a_b"` have equal §4.5 normalizations (colon goes to
underscore there), yet endpoint resolution fails, because the resolver's
normalization leaves colons alone. -/
theorem resolve_identifier_colon_counterexample :
    spec_sanitize_normalization asciiLower "a:b".data
        = spec_sanitize_normalization asciiLower "a_b".data
      ∧ "a:b".data ∉ (["a_b".data] : List Str)
      ∧ resolve_identifier asciiLower ["a_b".data] "a:b".data = none := by
  decide

/-- C4 (amended): endpoint resolution succeeds exactly when the reference
is verbatim in the created-identifier set, or its normalization —
lowercase with hyphens and spaces (but not colons) mapped to underscores —
equals the normalization of some created identifier; in particular a
reference differing from a created identifier only in case resolves
(`"APP_CORE"` against `app_core`). -/
theorem resolve_identifier_iff (lower : Char → Str) (ids : List Str) (ref : Str) :
    ((resolve_identifier lower ids ref).isSome = true
      ↔ ref ∈ ids
        ∨ ∃ eid ∈ ids, _normalize_identifier lower eid = _normalize_identifier lower ref)
    ∧ resolve_identifier asciiLower ["app_core".data] "APP_CORE".data = some "app_core".data := by
  constructor
  · unfold resolve_identifier
    by_cases href : ref ∈ ids
    · simp [href]
    · simp [href, List.find?_isSome]
  · decide

/-- Witness for C4 (amended): the scenario-D instance — `"APP_CORE"`
resolves against the created identifier `app_core`. -/
theorem resolve_identifier_iff_witness :
    resolve_identifier asciiLower ["app_core".data] "APP_CORE".data = some "app_core".data :=
  (resolve_identifier_iff asciiLower ["app_core".data] "APP_CORE".data).2

/-- C10: an item without a `relationship_type` field defaults to
`"Association"`; `"Association"` is not a key of `RELATIONSHIP_TYPES`, so
`_normalize_relationship_type` returns it unchanged, and when both
endpoints resolve the relationship handed to the persistence layer carries
type `"Association"`. -/
theorem relationship_type_defaults_association (persist : Relationship → Option Str)
    (ids : List Str) (acc : RelAcc) (item : RelItem) (s t : Str)
    (h0 : item.relationship_type = none)
    (hs : resolve_identifier asciiLower ids item.source = some s)
    (ht : resolve_identifier asciiLower ids item.target = some t) :
    "Association".data ∉ RELATIONSHIP_TYPES_keys
    ∧ _normalize_relationship_type asciiLower "Association".data = "Association".data
    ∧ (relStep asciiLower persist ids acc item).attempted
        = acc.attempted
            ++ [⟨s, t, "Association".data, item.name, item.confidence.getD (1/2)⟩] := by
  refine ⟨by decide, by decide, ?_⟩
  have hnorm : _normalize_relationship_type asciiLower "Association".data
      = "Association".data := by decide
  unfold relStep
  rw [h0, hs, ht]
  simp only [Option.getD_none, hnorm]
  split <;> rfl

/-- Witness for C10: a concrete item with no `relationship_type`, whose
source resolves by case-normalization and whose target resolves verbatim,
is handed to persistence with type `"Association"`. -/
theorem relationship_type_defaults_association_witness :
    "Association".data ∉ RELATIONSHIP_TYPES_keys
    ∧ _normalize_relationship_type asciiLower "Association".data = "Association".data
    ∧ (relStep asciiLower (fun _ => none) ["app_core".data, "db".data] ⟨[], 0, []⟩
          ⟨"APP_CORE".data, "db".data, none, none, none⟩).attempted
        = ([] : List Relationship)
            ++ [⟨"app_core".data, "db".data, "Association".data, none,
                  (none : Option ℚ).getD (1/2)⟩] :=
  relationship_type_defaults_association (fun _ => none) ["app_core".data, "db".data]
    ⟨[], 0, []⟩ ⟨"APP_CORE".data, "db".data, none, none, none⟩
    "app_core".data "db".data rfl (by decide) (by decide)

/-- An item of the parsed `elements` array, as read by `build_element`
(`deriva/modules/derivation/base.py`) via `dict.get`: every field may be
missing. -/
structure DerivedItem where
  identifier : Option Str
  name : Option Str
  documentation : Option Str
  source : Option Str
  confidence : Option ℚ
deriving DecidableEq

/-- The `data` dict of a successful `build_element` call; the three
`properties` entries are flattened into `prop_source`, `prop_confidence`
and `prop_derived_at`. -/
structure ElementData where
  identifier : Str
  name : Str
  element_type : Str
  documentation : Str
  prop_source : Option Str
  prop_confidence : ℚ
  prop_derived_at : Str
deriving DecidableEq

/-- Result of `build_element`: `{"success": False, "errors": [...]}` or
`{"success": True, "data": {...}}`. -/
inductive BuildResult where
  | failure (errors : List Str)
  | built (data : ElementData)
deriving DecidableEq

/-- `build_element` from `deriva/modules/derivation/base.py`.  `if not
identifier or not name` fails for a missing key or an empty string (the
falsy values of `dict.get` on strings); the identifier is sanitized only
after that check; `documentation` defaults to `""`, `confidence` to `0.5`;
`ts` stands for `current_timestamp()`. -/
def build_element (lower : Char → Str) (isAlnum isAlpha : Char → Bool) (ts : Str)
    (derived : DerivedItem) (element_type : Str) : BuildResult :=
  match derived.identifier, derived.name with
  | some identifier, some name =>
      if identifier.isEmpty || name.isEmpty then
        BuildResult.failure ["Missing identifier or name".data]
      else
        BuildResult.built
          ⟨_sanitize_identifier lower isAlnum isAlpha identifier, name, element_type,
            derived.documentation.getD [], derived.source,
            derived.confidence.getD (1/2), ts⟩
  | _, _ => BuildResult.failure ["Missing identifier or name".data]

/-- C5: `build_element` fails with the validation error exactly when the
item's identifier or name is missing or empty; on success the element's
identifier is the sanitized raw identifier, its type is the step's element
type, and its confidence defaults to `0.5` when absent. -/
theorem build_element_spec (lower : Char → Str) (isAlnum isAlpha : Char → Bool) (ts : Str)
    (derived : DerivedItem) (element_type : Str) :
    (build_element lower isAlnum isAlpha ts derived element_type
        = BuildResult.failure ["Missing identifier or name".data]
      ↔ derived.identifier = none ∨ derived.identifier = some []
        ∨ derived.name = none ∨ derived.name = some [])
    ∧ (∀ d : ElementData,
        build_element lower isAlnum isAlpha ts derived element_type = BuildResult.built d →
          ∃ raw, derived.identifier = some raw
            ∧ d.identifier = _sanitize_identifier lower isAlnum isAlpha raw
            ∧ d.element_type = element_type
            ∧ d.prop_confidence = derived.confidence.getD (1/2)) := by
  rcases derived with ⟨oid, onm, odoc, osrc, ocf⟩
  constructor
  · cases oid with
    | none => simp [build_element]
    | some i =>
        cases onm with
        | none => simp [build_element]
        | some n =>
            simp only [build_element]
            split
            · rename_i h
              simp only [Bool.or_eq_true, List.isEmpty_iff] at h
              simp [h]
            · rename_i h
              simp only [Bool.or_eq_true, List.isEmpty_iff] at h
              push_neg at h
              simp [h.1, h.2]
  · intro d hd
    cases oid with
    | none => cases hd
    | some i =>
        cases onm with
        | none => cases hd
        | some n =>
            simp only [build_element] at hd
            split at hd
            · cases hd
            · cases hd
              exact ⟨i, rfl, rfl, rfl, rfl⟩

/-- Witness for C5: at the concrete item
`{"identifier": "App-Core!", "name": "Core"}` (no confidence), the built
element carries the sanitized identifier `app_core`, the step's element
type, and confidence `0.5`. -/
theorem build_element_spec_witness :
    ∃ raw,
      (DerivedItem.mk (some "App-Core!".data) (some "Core".data) none none none).identifier
          = some raw
      ∧ (ElementData.mk "app_core".data "Core".data "ApplicationComponent".data [] none
            (1/2) []).identifier
          = _sanitize_identifier asciiLower Char.isAlphanum Char.isAlpha raw
      ∧ (ElementData.mk "app_core".data "Core".data "ApplicationComponent".data [] none
            (1/2) []).element_type
          = "ApplicationComponent".data
      ∧ (ElementData.mk "app_core".data "Core".data "ApplicationComponent".data [] none
            (1/2) []).prop_confidence
          = (DerivedItem.mk (some "App-Core!".data) (some "Core".data) none none
              none).confidence.getD (1/2) :=
  (build_element_spec asciiLower Char.isAlphanum Char.isAlpha []
      (DerivedItem.mk (some "App-Core!".data) (some "Core".data) none none none)
      "ApplicationComponent".data).2
    (ElementData.mk "app_core".data "Core".data "ApplicationComponent".data [] none (1/2) [])
    rfl

/-- Result of one prep step (`_run_prep_step`); only its `errors` list is
consumed by `run_derivation`'s accumulator (stats are only printed). -/
structure PrepResult where
  errors : List Str

/-- The dict returned by one `generate_element` call, as read by
`run_derivation`. -/
structure GenStepResult where
  elements_created : Nat
  created_elements : List CreatedElement
  errors : List Str

/-- Outcome of one generate-phase step: a returned result, or an exception
caught by `run_derivation` (with the step name used in the
`"Error in {step}: ..."` message). -/
inductive GenOutcome where
  | ok (r : GenStepResult)
  | err (step_name : Str) (msg : Str)

/-- Accumulator of the generate-phase loop of `run_derivation`. -/
structure GenAcc where
  elements_created : Nat
  steps_completed : Nat
  steps_skipped : Nat
  created_elements : List CreatedElement
  errors : List Str

/-- The `stats` dict of `run_derivation`. -/
structure RunStats where
  elements_created : Nat
  relationships_created : Nat
  steps_completed : Nat
  steps_skipped : Nat

/-- The dict returned by `run_derivation`. -/
structure RunResult where
  success : Bool
  stats : RunStats
  errors : List Str
  created_elements : List CreatedElement

/-- One iteration of the generate-phase loop of `run_derivation`
(`deriva/services/derivation.py`): a successful `generate_element` call
adds its element count, marks the step completed and accumulates its
created elements and errors; an exception appends one
`"Error in {step}: {e}"` string and marks the step skipped. -/
def genStep (a : GenAcc) (o : GenOutcome) : GenAcc :=
  match o with
  | GenOutcome.ok r =>
      { a with
          elements_created := a.elements_created + r.elements_created
          steps_completed := a.steps_completed + 1
          created_elements := a.created_elements ++ r.created_elements
          errors := a.errors ++ r.errors }
  | GenOutcome.err step_name msg =>
      { a with
          steps_skipped := a.steps_skipped + 1
          errors := a.errors ++ ["Error in ".data ++ step_name ++ ": ".data ++ msg] }

/-- `run_derivation` from `deriva/services/derivation.py`, parameterized
over the outcomes of the external collaborators: `prepResults` are the
results of `_run_prep_step` for the enabled prep configs, `genOutcomes`
the outcomes of `generate_element` for the enabled generate configs, and
`llm`/`persist` feed `_derive_relationships` as above.  The relationship
phase runs only when the generate phase ran and created more than one
element; `success` is `len(errors) == 0`. -/
def run_derivation (lower : Char → Str) (persist : Relationship → Option Str)
    (phases : List Str) (prepResults : List PrepResult) (genOutcomes : List GenOutcome)
    (llm : Option (Except Str ParseRes)) : RunResult :=
  let prepAcc : Nat × List Str :=
    if "prep".data ∈ phases then
      prepResults.foldl (fun a r => (a.1 + 1, a.2 ++ r.errors)) (0, [])
    else (0, [])
  let genAcc : GenAcc :=
    if "generate".data ∈ phases then
      genOutcomes.foldl genStep ⟨0, 0, 0, [], []⟩
    else ⟨0, 0, 0, [], []⟩
  let created := genAcc.created_elements
  let relPair : Nat × List Str :=
    if "generate".data ∈ phases ∧ created ≠ [] ∧ 1 < created.length then
      let rel := _derive_relationships lower persist created llm
      (rel.relationships_created, rel.errors)
    else (0, [])
  let errors := prepAcc.2 ++ genAcc.errors ++ relPair.2
  { success := errors.isEmpty
    stats :=
      { elements_created := genAcc.elements_created
        relationships_created := relPair.1
        steps_completed := prepAcc.1 + genAcc.steps_completed
        steps_skipped := genAcc.steps_skipped }
    errors := errors
    created_elements := created }

/-- C6: `run_derivation` reports `success = true` exactly when the
accumulated error list is empty; a run with two elements created and a
step error is `success = false` with `elements_created = 2`, so partial
success is distinguishable from a run that created nothing. -/
theorem run_derivation_success_iff :
    (∀ (lower : Char → Str) (persist : Relationship → Option Str) (phases : List Str)
        (prepResults : List PrepResult) (genOutcomes : List GenOutcome)
        (llm : Option (Except Str ParseRes)),
        (run_derivation lower persist phases prepResults genOutcomes llm).success = true
          ↔ (run_derivation lower persist phases prepResults genOutcomes llm).errors = [])
    ∧ (run_derivation asciiLower (fun _ => none) ["generate".data] []
          [GenOutcome.ok ⟨2, [⟨"a".data⟩, ⟨"b".data⟩], ["generation error".data]⟩]
          (some (Except.ok ⟨true, [], []⟩))).success = false
    ∧ (run_derivation asciiLower (fun _ => none) ["generate".data] []
          [GenOutcome.ok ⟨2, [⟨"a".data⟩, ⟨"b".data⟩], ["generation error".data]⟩]
          (some (Except.ok ⟨true, [], []⟩))).stats.elements_created = 2 := by
  refine ⟨?_, by decide, by decide⟩
  intro lower persist phases prepResults genOutcomes llm
  simp only [run_derivation]
  exact List.isEmpty_iff

/-- Witness for C6: the success-iff-no-errors equivalence at a concrete
empty run. -/
theorem run_derivation_success_iff_witness :
    (run_derivation asciiLower (fun _ => none) [] [] [] none).success = true
      ↔ (run_derivation asciiLower (fun _ => none) [] [] [] none).errors = [] :=
  run_derivation_success_iff.1 asciiLower (fun _ => none) [] [] [] none

/-- Fuel-based chunking: peel the first `n` elements as one batch and
recurse on the rest; the fuel (instantiated with the input length) only
makes the recursion structural. -/
def chunkFuel {α : Type} : Nat → Nat → List α → List (List α)
  | _, _, [] => []
  | 0, _, xs => [xs]
  | fuel + 1, n, x :: xs => ((x :: xs).take n) :: chunkFuel fuel n ((x :: xs).drop n)

/-- Modelled from the spec: `batch_candidates` is called by the
element-type modules (`application_component.py`, imported from
`deriva.modules.derivation.base`) but its definition is not under `src/`.
Spec §4.3: split the filtered list into fixed-size, order-preserving
chunks; empty input yields zero batches (not a batch of zero). -/
def batch_candidates {α : Type} (candidates : List α) (n : Nat) : List (List α) :=
  chunkFuel candidates.length n candidates

theorem chunkFuel_join {α : Type} :
    ∀ (fuel n : Nat) (xs : List α), (chunkFuel fuel n xs).flatten = xs := by
  intro fuel
  induction fuel with
  | zero =>
      intro n xs
      cases xs with
      | nil => rfl
      | cons x xs => simp [chunkFuel]
  | succ fuel ih =>
      intro n xs
      cases xs with
      | nil => rfl
      | cons x xs =>
          simp only [chunkFuel, List.flatten_cons, ih]
          exact List.take_append_drop n (x :: xs)

theorem chunkFuel_sizes {α : Type} {n : Nat} (hn : 0 < n) :
    ∀ (fuel : Nat) (xs : List α), xs.length ≤ fuel →
      ∀ b ∈ chunkFuel fuel n xs, b ≠ [] ∧ b.length ≤ n := by
  intro fuel
  induction fuel with
  | zero =>
      intro xs hlen b hb
      rw [List.length_eq_zero.mp (Nat.le_zero.mp hlen)] at hb
      cases hb
  | succ fuel ih =>
      intro xs hlen b hb
      cases xs with
      | nil => cases hb
      | cons x xs =>
          simp only [chunkFuel, List.mem_cons] at hb
          rcases hb with rfl | hb
          · constructor
            · cases n with
              | zero => exact absurd hn (by omega)
              | succ m => simp [List.take]
            · simp
          · refine ih ((x :: xs).drop n) ?_ b hb
            simp only [List.length_drop, List.length_cons] at *
            omega

/-- C9: batching splits the candidate list into order-preserving chunks
whose concatenation reproduces the input exactly; the empty list yields
zero batches for every chunk size; and for a positive chunk size every
batch is non-empty with at most `n` candidates. -/
theorem batch_candidates_spec {α : Type} (candidates : List α) (n : Nat) :
    (batch_candidates candidates n).flatten = candidates
    ∧ batch_candidates ([] : List α) n = []
    ∧ (0 < n → ∀ b ∈ batch_candidates candidates n, b ≠ [] ∧ b.length ≤ n) := by
  refine ⟨chunkFuel_join _ n candidates, rfl, fun hn => ?_⟩
  exact chunkFuel_sizes hn candidates.length candidates (Nat.le_refl _)

/-- Witness for C9: batching `[1,2,3,4,5]` with chunk size 2 reproduces
the list, yields no batch on empty input, and produces only non-empty
batches of at most 2 elements. -/
theorem batch_candidates_spec_witness :
    (batch_candidates [1, 2, 3, 4, 5] 2).flatten = [1, 2, 3, 4, 5]
    ∧ batch_candidates ([] : List Nat) 2 = []
    ∧ ∀ b ∈ batch_candidates [1, 2, 3, 4, 5] 2, b ≠ [] ∧ b.length ≤ 2 :=
  ⟨(batch_candidates_spec [1, 2, 3, 4, 5] 2).1,
    (batch_candidates_spec ([] : List Nat) 2).2.1,
    (batch_candidates_spec [1, 2, 3, 4, 5] 2).2.2 (by decide)⟩

/-- An edge dict with `source` and `target` keys
(`deriva/modules/derivation/enrich.py`). -/
structure Edge where
  source : Str
  target : Str
deriving DecidableEq

/-- Python `set.add` on a set represented as a duplicate-free list. -/
def setAdd (s : List Str) (x : Str) : List Str :=
  if x ∈ s then s else s ++ [x]

/-- `adj[k].add(v)` on a `defaultdict(set)` represented as an association
list. -/
def adjAdd (adj : List (Str × List Str)) (k v : Str) : List (Str × List Str) :=
  if (adj.lookup k).isSome then
    adj.map (fun p => if p.1 = k then (p.1, setAdd p.2 v) else p)
  else adj ++ [(k, [v])]

/-- `build_adjacency` from `deriva/modules/derivation/enrich.py`:
undirected adjacency — both endpoints are added to the node set and each
to the other's neighbor set. -/
def build_adjacency (edges : List Edge) : List Str × List (Str × List Str) :=
  edges.foldl
    (fun acc e =>
      (setAdd (setAdd acc.1 e.source) e.target,
        adjAdd (adjAdd acc.2 e.source e.target) e.target e.source))
    ([], [])

/-- `build_directed_adjacency` from the same module: node set, outgoing
adjacency, incoming adjacency. -/
def build_directed_adjacency (edges : List Edge) :
    List Str × List (Str × List Str) × List (Str × List Str) :=
  edges.foldl
    (fun acc e =>
      (setAdd (setAdd acc.1 e.source) e.target,
        adjAdd acc.2.1 e.source e.target,
        adjAdd acc.2.2 e.target e.source))
    ([], [], [])

/-- `neighbors_fn`: `lambda node: adj.get(node, set())`. -/
def neighbors_fn (adj : List (Str × List Str)) : Str → List Str :=
  fun node => (adj.lookup node).getD []

/-- Signature of `solvor.pagerank.pagerank` (nodes, neighbors, damping,
max_iter, tol); `solvor` is an external library, so it is an opaque
parameter of the wrappers. -/
abbrev SolvorPagerank := List Str → (Str → List Str) → ℚ → Nat → ℚ → List (Str × ℚ)

/-- Signature of `solvor.community.louvain` (nodes, neighbors,
resolution), returning a list of communities (sets of nodes). -/
abbrev SolvorLouvain := List Str → (Str → List Str) → ℚ → List (List Str)

/-- Signature of `solvor.kcore.kcore_decomposition`. -/
abbrev SolvorKcore := List Str → (Str → List Str) → List (Str × Nat)

/-- Signature of `solvor.articulation.articulation_points`. -/
abbrev SolvorArticulation := List Str → (Str → List Str) → List Str

/-- `compute_pagerank` from `deriva/modules/derivation/enrich.py`: build
the undirected adjacency, return the empty map on an empty node set,
otherwise delegate to solvor. -/
def compute_pagerank (solvor_pagerank : SolvorPagerank) (edges : List Edge)
    (damping : ℚ) (max_iter : Nat) (tol : ℚ) : List (Str × ℚ) :=
  let na := build_adjacency edges
  if na.1.isEmpty then []
  else solvor_pagerank na.1 (neighbors_fn na.2) damping max_iter tol

/-- Python dict assignment `m[k] = v` on an association list read through
`List.lookup` (the most recent binding shadows older ones). -/
def mapInsert (m : List (Str × Str)) (k v : Str) : List (Str × Str) :=
  (k, v) :: m

/-- One iteration of the `for community in result.solution` loop of
`compute_louvain`: skip empty communities (`if community:`), otherwise
assign every member the lexicographically smallest member
(`sorted(community_list)[0]`, embedded as `List.min?` — Python's string
order and the `List Char` linear order are both codepoint-lexicographic)
as its community id. -/
def louvainStep (m : List (Str × Str)) (community : List Str) : List (Str × Str) :=
  match community.min? with
  | none => m
  | some community_id => community.foldl (fun m node => mapInsert m node community_id) m

/-- The community-to-assignment conversion of `compute_louvain`
(`node_to_community`). -/
def louvainAssign (communities : List (List Str)) : List (Str × Str) :=
  communities.foldl louvainStep []

/-- `compute_louvain` from `deriva/modules/derivation/enrich.py`: empty
map on an empty node set, otherwise solvor's communities converted to a
node-to-representative mapping. -/
def compute_louvain (solvor_louvain : SolvorLouvain) (edges : List Edge)
    (resolution : ℚ) : List (Str × Str) :=
  let na := build_adjacency edges
  if na.1.isEmpty then []
  else louvainAssign (solvor_louvain na.1 (neighbors_fn na.2) resolution)

/-- `compute_kcore` from the same module. -/
def compute_kcore (solvor_kcore : SolvorKcore) (edges : List Edge) : List (Str × Nat) :=
  let na := build_adjacency edges
  if na.1.isEmpty then []
  else solvor_kcore na.1 (neighbors_fn na.2)

/-- `compute_articulation_points` from the same module. -/
def compute_articulation_points (solvor_articulation_points : SolvorArticulation)
    (edges : List Edge) : List Str :=
  let na := build_adjacency edges
  if na.1.isEmpty then []
  else solvor_articulation_points na.1 (neighbors_fn na.2)

/-- `compute_degree_centrality` from the same module: per node, the sizes
of its incoming and outgoing neighbor sets. -/
def compute_degree_centrality (edges : List Edge) : List (Str × Nat × Nat) :=
  let t := build_directed_adjacency edges
  t.1.map (fun node =>
    (node, ((t.2.2.lookup node).getD []).length, ((t.2.1.lookup node).getD []).length))

/-- The `params["pagerank"]` sub-dict (defaults are the keyword defaults
of `compute_pagerank`: damping `0.85`, max_iter `100`, tol `1e-6`). -/
structure PagerankParams where
  damping : ℚ
  max_iter : Nat
  tol : ℚ

/-- The `params["louvain"]` sub-dict (default resolution `1.0`). -/
structure LouvainParams where
  resolution : ℚ

/-- The optional `params` argument of `enrich_graph`; a missing sub-dict
means the algorithm's keyword defaults. -/
structure EnrichParams where
  pagerank : Option PagerankParams
  louvain : Option LouvainParams

/-- A per-node enrichment dict; a `none` field is a missing key. -/
structure Enrichment where
  pagerank : Option ℚ
  louvain_community : Option Str
  kcore_level : Option Nat
  is_articulation_point : Option Bool
  in_degree : Option Nat
  out_degree : Option Nat
deriving DecidableEq

/-- The empty per-node enrichment dict. -/
def emptyEnrichment : Enrichment := ⟨none, none, none, none, none, none⟩

/-- `enrichments[k][field] = v` on a `defaultdict(dict)` represented as an
association list: update the entry in place if present, else append a
fresh one. -/
def updEnrich (m : List (Str × Enrichment)) (k : Str) (f : Enrichment → Enrichment) :
    List (Str × Enrichment) :=
  if (m.lookup k).isSome then m.map (fun p => if p.1 = k then (p.1, f p.2) else p)
  else m ++ [(k, f emptyEnrichment)]

/-- `enrich_graph` from `deriva/modules/derivation/enrich.py`: empty map
for an empty edge list; otherwise initialize every node with an empty
enrichment and merge in the result of each requested algorithm.  All
functions are total, so no call can raise. -/
def enrich_graph (spr : SolvorPagerank) (slv : SolvorLouvain) (skc : SolvorKcore)
    (sap : SolvorArticulation) (edges : List Edge) (algorithms : List Str)
    (params : EnrichParams) : List (Str × Enrichment) :=
  if edges.isEmpty then []
  else
    let all_nodes := edges.foldl (fun s e => setAdd (setAdd s e.source) e.target) []
    let enrichments := all_nodes.map (fun n => (n, emptyEnrichment))
    let enrichments :=
      if "pagerank".data ∈ algorithms then
        let pr := params.pagerank.getD ⟨17/20, 100, 1/1000000⟩
        (compute_pagerank spr edges pr.damping pr.max_iter pr.tol).foldl
          (fun m p => updEnrich m p.1 (fun e => { e with pagerank := some p.2 })) enrichments
      else enrichments
    let enrichments :=
      if "louvain".data ∈ algorithms then
        let lv := params.louvain.getD ⟨1⟩
        (compute_louvain slv edges lv.resolution).foldl
          (fun m p => updEnrich m p.1 (fun e => { e with louvain_community := some p.2 }))
          enrichments
      else enrichments
    let enrichments :=
      if "kcore".data ∈ algorithms then
        (compute_kcore skc edges).foldl
          (fun m p => updEnrich m p.1 (fun e => { e with kcore_level := some p.2 })) enrichments
      else enrichments
    let enrichments :=
      if "articulation_points".data ∈ algorithms then
        let ap_nodes := compute_articulation_points sap edges
        all_nodes.foldl
          (fun m n =>
            updEnrich m n (fun e => { e with is_articulation_point := some (ap_nodes.contains n) }))
          enrichments
      else enrichments
    let enrichments :=
      if "degree".data ∈ algorithms then
        (compute_degree_centrality edges).foldl
          (fun m p =>
            updEnrich m p.1
              (fun e => { e with in_degree := some p.2.1, out_degree := some p.2.2 }))
          enrichments
      else enrichments
    enrichments

theorem lookup_mapInsert (m : List (Str × Str)) (k v x : Str) :
    (mapInsert m k v).lookup x = if x = k then some v else m.lookup x := by
  unfold mapInsert
  rw [List.lookup_cons]
  by_cases h : x = k
  · simp [h]
  · simp [beq_eq_false_iff_ne.mpr h, h]

theorem inner_assign_lookup (cid : Str) (c : List Str) :
    ∀ (m : List (Str × Str)) (x : Str),
      (c.foldl (fun m node => mapInsert m node cid) m).lookup x
        = if x ∈ c then some cid else m.lookup x := by
  induction c with
  | nil =>
      intro m x
      simp
  | cons y ys ih =>
      intro m x
      simp only [List.foldl_cons, ih, lookup_mapInsert]
      by_cases hxy : x = y
      · subst hxy
        by_cases hys : x ∈ ys <;> simp [hys]
      · by_cases hys : x ∈ ys <;> simp [hys, hxy]

theorem louvainStep_lookup_not_mem (m : List (Str × Str)) (c : List Str) (x : Str)
    (hx : x ∉ c) : (louvainStep m c).lookup x = m.lookup x := by
  unfold louvainStep
  split
  · rfl
  · rw [inner_assign_lookup]
    simp [hx]

theorem foldl_louvainStep_not_mem :
    ∀ (cs : List (List Str)) (m : List (Str × Str)) (x : Str), (∀ c ∈ cs, x ∉ c) →
      (cs.foldl louvainStep m).lookup x = m.lookup x := by
  intro cs
  induction cs with
  | nil =>
      intro m x _
      rfl
  | cons c0 rest ih =>
      intro m x h
      simp only [List.foldl_cons]
      rw [ih _ x (fun c hc => h c (List.mem_cons_of_mem _ hc)),
        louvainStep_lookup_not_mem _ _ _ (h c0 (List.mem_cons_self _ _))]

theorem foldl_louvainStep_lookup :
    ∀ (cs : List (List Str)) (m : List (Str × Str)) (c : List Str) (x : Str),
      cs.Pairwise (fun a b => ∀ y ∈ a, y ∉ b) → c ∈ cs → x ∈ c →
      (cs.foldl louvainStep m).lookup x = c.min? := by
  intro cs
  induction cs with
  | nil =>
      intro m c x _ hc
      cases hc
  | cons c0 rest ih =>
      intro m c x hdisj hc hx
      rw [List.pairwise_cons] at hdisj
      rcases List.mem_cons.mp hc with rfl | hc'
      · simp only [List.foldl_cons]
        rw [foldl_louvainStep_not_mem rest _ x (fun b hb => hdisj.1 b hb x hx)]
        unfold louvainStep
        cases hmin : c.min? with
        | none =>
            rw [List.min?_eq_none_iff] at hmin
            subst hmin
            cases hx
        | some cid =>
            rw [inner_assign_lookup]
            simp [hx]
      · simp only [List.foldl_cons]
        exact ih _ c x hdisj.2 hc' hx

/-- C8: under the assumption that solvor's Louvain returns pairwise
disjoint communities (it returns a partition of the node set; solvor is an
external library), every node's assigned `community_id` is the
lexicographically smallest node id of the community containing it, and a
node is a community root exactly when its own id equals its assigned
community id. -/
theorem compute_louvain_community_root (solvor_louvain : SolvorLouvain) (edges : List Edge)
    (resolution : ℚ) (c : List Str) (x : Str)
    (hne : (build_adjacency edges).1.isEmpty = false)
    (hdisj : (solvor_louvain (build_adjacency edges).1
        (neighbors_fn (build_adjacency edges).2) resolution).Pairwise
          (fun a b => ∀ y ∈ a, y ∉ b))
    (hc : c ∈ solvor_louvain (build_adjacency edges).1
        (neighbors_fn (build_adjacency edges).2) resolution)
    (hx : x ∈ c) :
    (compute_louvain solvor_louvain edges resolution).lookup x = c.min?
    ∧ ((compute_louvain solvor_louvain edges resolution).lookup x = some x
        ↔ c.min? = some x)
    ∧ ∀ y, c.min? = some y → y ∈ c ∧ ∀ z ∈ c, y ≤ z := by
  have hmain : (compute_louvain solvor_louvain edges resolution).lookup x = c.min? := by
    unfold compute_louvain
    simp only [hne, Bool.false_eq_true, if_false]
    exact foldl_louvainStep_lookup _ [] c x hdisj hc hx
  refine ⟨hmain, by rw [hmain], fun y hy => ?_⟩
  haveI : Std.Antisymm (fun (a b : Str) => a ≤ b) := ⟨fun h h' => le_antisymm h h'⟩
  exact (List.min?_eq_some_iff (fun a => le_refl a) (fun a b => min_choice a b)
    (fun a b c => le_min_iff)).mp hy

/-- Witness for C8: a concrete two-community partition of the nodes of a
three-node path; node `b` is assigned representative `a`, the
lexicographically smallest member of its community. -/
theorem compute_louvain_community_root_witness :
    (compute_louvain (fun _ _ _ => [["b".data, "a".data], ["c".data]])
        [⟨"a".data, "b".data⟩, ⟨"b".data, "c".data⟩] 1).lookup "b".data
      = (["b".data, "a".data] : List Str).min?
    ∧ ((compute_louvain (fun _ _ _ => [["b".data, "a".data], ["c".data]])
          [⟨"a".data, "b".data⟩, ⟨"b".data, "c".data⟩] 1).lookup "b".data
        = some "b".data
        ↔ (["b".data, "a".data] : List Str).min? = some "b".data)
    ∧ ∀ y, (["b".data, "a".data] : List Str).min? = some y
        → y ∈ (["b".data, "a".data] : List Str)
          ∧ ∀ z ∈ (["b".data, "a".data] : List Str), y ≤ z :=
  compute_louvain_community_root (fun _ _ _ => [["b".data, "a".data], ["c".data]])
    [⟨"a".data, "b".data⟩, ⟨"b".data, "c".data⟩] 1 ["b".data, "a".data] "b".data
    (by decide) (by decide) (by decide) (by decide)

/-- C7: for the empty edge list, `enrich_graph` and every individual
enrichment algorithm return the empty map, for every solvor
implementation, every algorithm list and all parameters; being total Lean
functions, none of them can raise. -/
theorem enrich_empty_edges (spr : SolvorPagerank) (slv : SolvorLouvain) (skc : SolvorKcore)
    (sap : SolvorArticulation) (algorithms : List Str) (params : EnrichParams)
    (damping : ℚ) (max_iter : Nat) (tol : ℚ) (resolution : ℚ) :
    compute_pagerank spr [] damping max_iter tol = []
    ∧ compute_louvain slv [] resolution = []
    ∧ compute_kcore skc [] = []
    ∧ compute_articulation_points sap [] = []
    ∧ compute_degree_centrality [] = []
    ∧ enrich_graph spr slv skc sap [] algorithms params = [] :=
  ⟨rfl, rfl, rfl, rfl, rfl, rfl⟩

end Deriva
